import Mathlib

/-!
Verification of the form-field detection and autofill heuristic of
`extension/content.js` (the Mexty browser extension content script).

The script is embedded shallowly:

* a `Form` is its visible text together with the ordered list of contained
  field elements (`querySelectorAll('input, textarea, select')`);
* a field element (`Elem`) carries the descriptive strings the classifier
  reads (`name`, `id`, `placeholder`, `aria-label`, associated label text),
  its tag name and `type` attribute, a select element's option list and the
  mutable `value`;
* DOM mutation (`focus`, value assignment, event dispatch, `blur`) is
  modelled as a sequence of operations on the element state; a hostile or
  detached element is modelled by `failAt`, the index of the operation at
  which the element throws, and the `try`/`catch` of `fillElement` is
  modelled by running that sequence in `Except`;
* JavaScript string operations used by the script are embedded per
  character: `toLowerCase` maps `Char.toLower` over the characters,
  `trim` drops whitespace at both ends, `includes` is contiguous
  containment, and JS truthiness of a possibly-missing string
  (`null`/`undefined`/`""` are falsy) is `truthy`.
-/

/-- JS `String.prototype.toLowerCase`, embedded per character. -/
def jsLower (s : String) : String := ⟨s.data.map Char.toLower⟩

/-- JS `String.prototype.trim`: drop whitespace at both ends. -/
def jsTrim (s : String) : String :=
  ⟨((s.data.dropWhile Char.isWhitespace).reverse.dropWhile Char.isWhitespace).reverse⟩

/-- `needle` occurs contiguously in `hay` (helper for `jsIncludes`). -/
def hasSub (hay needle : List Char) : Bool :=
  needle.isPrefixOf hay ||
    match hay with
    | [] => false
    | _ :: t => hasSub t needle

/-- JS `a.includes(k)`: `k` is a contiguous substring of `a`. -/
def jsIncludes (a k : String) : Bool := hasSub a.data k.data

/-- JS truthiness of a possibly missing string: `null`/`undefined` (here
`none`) and the empty string are falsy. -/
def truthy : Option String → Bool
  | none => false
  | some s => decide (s ≠ "")

/-- JS `a || b` on possibly missing strings. -/
def jsOr (a b : Option String) : Option String := if truthy a then a else b

/-- An `<option>` of a select element: visible text and underlying value. -/
structure SelectOption where
  text : String
  value : String
deriving DecidableEq

/-- A form field element as the content script sees it.  `failAt = some i`
models a hostile or detached element that throws at the `i`-th DOM
operation performed on it during a fill; `failAt = none` is a well-behaved
element. -/
structure Elem where
  tagName : String
  typeAttr : Option String
  nameAttr : Option String
  idAttr : Option String
  placeholder : Option String
  ariaLabel : Option String
  labelText : Option String
  options : List SelectOption
  value : String
  failAt : Option Nat
deriving DecidableEq

/-- `FIELD_MAP` of content.js: category names with their keyword aliases, in
declaration order. -/
def FIELD_MAP : List (String × List String) :=
  [("name", ["name", "full_name", "fullname", "applicant_name"]),
   ("firstName", ["first_name", "firstname", "given-name", "firstName"]),
   ("lastName", ["last_name", "lastname", "family-name", "lastName"]),
   ("email", ["email", "email_address"]),
   ("phone", ["phone", "phone_number", "tel"]),
   ("location", ["location", "city", "address", "country"]),
   ("portfolio", ["portfolio", "website", "site", "personal_site", "github", "linkedin"]),
   ("resume", ["resume", "cv", "upload_resume"]),
   ("coverLetter", ["coverletter", "cover_letter"]),
   ("linkedin", ["linkedin", "linkedin_url"]),
   ("github", ["github", "github_url"])]

/-- The descriptive strings of an element, as `identifyFieldType` gathers
them: `name`, `id`, `placeholder`, `aria-label` — falsy ones discarded,
the rest lowercased — then the lowercased associated label text if any. -/
def attrsOf (el : Elem) : List String :=
  (([el.nameAttr, el.idAttr, el.placeholder, el.ariaLabel].filterMap id).filter
      (fun s => decide (s ≠ ""))).map jsLower
    ++ (match el.labelText with
        | some l => if jsLower l ≠ "" then [jsLower l] else []
        | none => [])

/-- Does some alias of a category occur in some descriptive string? -/
def catMatches (el : Elem) (aliases : List String) : Bool :=
  aliases.any (fun kw => (attrsOf el).any (fun a => jsIncludes a kw))

/-- `identifyFieldType` of content.js: the first category of `FIELD_MAP`
(in declaration order) one of whose aliases occurs in one of the element's
descriptive strings. -/
def identifyFieldType (el : Elem) : Option String :=
  (FIELD_MAP.find? (fun e => catMatches el e.2)).map Prod.fst

/-- One DOM operation performed on an element during a fill. -/
inductive DomOp
  | focus
  | setVal (v : String)
  | dispatchEvent (ev : String)
  | blur
deriving DecidableEq

/-- Effect of a DOM operation on the element state: only value assignment
changes the state the script can later observe. -/
def applyOp : DomOp → Elem → Elem
  | .focus, el => el
  | .setVal v, el => { el with value := v }
  | .dispatchEvent _, el => el
  | .blur, el => el

/-- Run a sequence of DOM operations from operation index `i`; a hostile
element (`failAt = some j`) throws when operation `j` is attempted, leaving
the state reached so far. -/
def runOps : List DomOp → Elem → Nat → Except Unit Unit × Elem
  | [], el, _ => (Except.ok (), el)
  | op :: rest, el, i =>
    if el.failAt = some i then (Except.error (), el)
    else runOps rest (applyOp op el) (i + 1)

/-- The operations of the input/textarea branch of `fillElement`:
focus, assign the value, dispatch `input` and `change`, blur. -/
def fillOps (v : String) : List DomOp :=
  [DomOp.focus, DomOp.setVal v, DomOp.dispatchEvent "input",
   DomOp.dispatchEvent "change", DomOp.blur]

/-- The operations of the select branch: assign the matched option's value
and dispatch `change`. -/
def selectOps (v : String) : List DomOp :=
  [DomOp.setVal v, DomOp.dispatchEvent "change"]

/-- The option-match predicate of the select branch: the option's visible
text or underlying value equals the candidate value, trimmed,
case-insensitively. -/
def optionMatches (v : String) (o : SelectOption) : Bool :=
  decide (jsLower (jsTrim o.text) = jsLower (jsTrim v) ∨
    jsLower (jsTrim o.value) = jsLower (jsTrim v))

/-- The `try` block of `fillElement`: `Except.error` is a thrown exception,
paired with the element state at the throw. -/
def tryFill (el : Elem) (v : String) : Except Unit Bool × Elem :=
  let tag := jsLower el.tagName
  let ty := jsLower (el.typeAttr.getD "")
  if tag = "input" ∨ tag = "textarea" then
    if ty = "checkbox" ∨ ty = "radio" then (Except.ok false, el)
    else
      match runOps (fillOps v) el 0 with
      | (Except.ok _, el') => (Except.ok true, el')
      | (Except.error e, el') => (Except.error e, el')
  else if tag = "select" then
    match el.options.find? (optionMatches v) with
    | some m =>
      match runOps (selectOps m.value) el 0 with
      | (Except.ok _, el') => (Except.ok true, el')
      | (Except.error e, el') => (Except.error e, el')
    | none => (Except.ok false, el)
  else (Except.ok false, el)

/-- `fillElement` for a present element: the `try` block with its
`catch`-and-return-false, and the `value == null` guard. -/
def fillCore (el : Elem) (v : Option String) : Bool × Elem :=
  match v with
  | none => (false, el)
  | some s =>
    match tryFill el s with
    | (Except.ok b, el') => (b, el')
    | (Except.error _, el') => (false, el')

/-- `fillElement` of content.js, with the `!el` guard. -/
def fillElement (el : Option Elem) (v : Option String) : Bool × Option Elem :=
  match el with
  | none => (false, none)
  | some e => ((fillCore e v).1, some (fillCore e v).2)

/-- The profile record supplied by the collaborator; every key may be
missing. -/
structure Profile where
  fullName : Option String
  firstName : Option String
  lastName : Option String
  email : Option String
  phone : Option String
  location : Option String
  city : Option String
  portfolio : Option String
  website : Option String
  linkedin : Option String
  github : Option String
deriving DecidableEq

/-- `[profile.firstName, profile.lastName].filter(Boolean).join(' ')`. -/
def joinFiltered (f l : Option String) : String :=
  String.intercalate " " (([f, l].filterMap id).filter (fun s => decide (s ≠ "")))

/-- The per-category value resolution of the `switch` in `autoFillForms`.
Categories without a case (`resume`, `coverLetter`) leave the candidate
value `null`. -/
def resolveValue (p : Profile) (key : String) : Option String :=
  if key = "name" then jsOr p.fullName (some (joinFiltered p.firstName p.lastName))
  else if key = "firstName" then p.firstName
  else if key = "lastName" then p.lastName
  else if key = "email" then p.email
  else if key = "phone" then p.phone
  else if key = "location" then jsOr p.location p.city
  else if key = "portfolio" then jsOr (jsOr (jsOr p.portfolio p.website) p.linkedin) p.github
  else if key = "linkedin" then p.linkedin
  else if key = "github" then p.github
  else none

/-- The body of the inner loop of `autoFillForms` for one element: classify,
resolve, and — when the candidate value is truthy — fill.  Returns whether
the element was counted, and the element's state afterwards. -/
def processElem (p : Profile) (el : Elem) : Bool × Elem :=
  match identifyFieldType el with
  | none => (false, el)
  | some key =>
    let v := resolveValue p key
    if truthy v then fillCore el v else (false, el)

/-- The inner loop of `autoFillForms` over one form's elements: the number
of fields counted and the elements' states afterwards. -/
def processInputs (p : Profile) : List Elem → Nat × List Elem
  | [] => (0, [])
  | el :: rest =>
    ((if (processElem p el).1 then 1 else 0) + (processInputs p rest).1,
     (processElem p el).2 :: (processInputs p rest).2)

/-- A document form: its visible text (used for keyword detection) and its
contained field elements in document order. -/
structure Form where
  innerText : String
  inputs : List Elem
deriving DecidableEq

/-- The job-form keyword list of `detectJobForm`. -/
def jobKeywords : List String :=
  ["apply", "application", "resume", "cv", "cover letter", "job", "position"]

/-- Does a form's lowercased text contain one of the job keywords? -/
def formMatches (f : Form) : Bool :=
  jobKeywords.any (fun k => jsIncludes (jsLower f.innerText) k)

/-- `detectJobForm` of content.js: the keyword-matching forms, or `none`
when there is no match. -/
def detectJobForm (forms : List Form) : Option (List Form) :=
  if (forms.filter formMatches).length > 0 then some (forms.filter formMatches) else none

/-- Fill one detected form: the number of fields counted and the updated
form. -/
def fillForm (p : Profile) (f : Form) : Nat × Form :=
  ((processInputs p f.inputs).1, { f with inputs := (processInputs p f.inputs).2 })

/-- The result object of `autoFillForms`. -/
structure FillSummary where
  success : Bool
  reason : Option String
  count : Option Nat
deriving DecidableEq

/-- `autoFillForms` of content.js over a document (its list of forms) and
the profile the collaborator returned (`none` = no profile data).  Returns
the result object and the document afterwards. -/
def autoFillForms (forms : List Form) (profile : Option Profile) :
    FillSummary × List Form :=
  match detectJobForm forms with
  | none => ({ success := false, reason := some "No form detected", count := none }, forms)
  | some _ =>
    match profile with
    | none => ({ success := false, reason := some "No profile data", count := none }, forms)
    | some p =>
      let filled := forms.map (fun f => if formMatches f then fillForm p f else (0, f))
      ({ success := decide (0 < (filled.map Prod.fst).sum), reason := none,
         count := some (filled.map Prod.fst).sum },
       filled.map Prod.snd)

/-! ### Substring facts -/

theorem hasSub_iff : ∀ hay needle : List Char,
    hasSub hay needle = true ↔ ∃ pre post, hay = pre ++ needle ++ post
  | [], needle => by
    simp only [hasSub, Bool.or_false, List.isPrefixOf_iff_prefix]
    constructor
    · intro h
      rcases List.prefix_nil.mp h with rfl
      exact ⟨[], [], rfl⟩
    · rintro ⟨pre, post, h⟩
      rcases List.append_eq_nil.mp h.symm with ⟨h1, h2⟩
      rcases List.append_eq_nil.mp h1 with ⟨rfl, rfl⟩
      simp
  | a :: t, needle => by
    rw [hasSub]
    simp only [Bool.or_eq_true, List.isPrefixOf_iff_prefix, hasSub_iff t needle]
    constructor
    · rintro (⟨s, hs⟩ | ⟨pre, post, rfl⟩)
      · exact ⟨[], s, by simp [hs]⟩
      · exact ⟨a :: pre, post, by simp⟩
    · rintro ⟨pre, post, h⟩
      cases pre with
      | nil => exact Or.inl ⟨post, by simpa using h.symm⟩
      | cons p ps =>
        rcases List.cons_eq_cons.mp h with ⟨rfl, ht⟩
        exact Or.inr ⟨ps, post, by simpa using ht⟩

theorem jsIncludes_trans {a k m : String} (h : jsIncludes a k = true)
    (hkm : hasSub k.data m.data = true) : jsIncludes a m = true := by
  rcases (hasSub_iff _ _).mp h with ⟨pre, post, hp⟩
  rcases (hasSub_iff _ _).mp hkm with ⟨pre2, post2, hq⟩
  exact (hasSub_iff _ _).mpr
    ⟨pre ++ pre2, post2 ++ post, by simp [hp, hq, List.append_assoc]⟩

theorem mem_of_jsIncludes {a k : String} {c : Char} (h : jsIncludes a k = true)
    (hc : c ∈ k.data) : c ∈ a.data := by
  rcases (hasSub_iff _ _).mp h with ⟨pre, post, hp⟩
  rw [hp]
  simp only [List.mem_append]
  exact Or.inl (Or.inr hc)

/-! ### Lowercase image facts -/

theorem toLower_not_upper (c : Char) :
    ¬(65 ≤ (Char.toLower c).toNat ∧ (Char.toLower c).toNat ≤ 90) := by
  by_cases h : c.toNat ≥ 65 ∧ c.toNat ≤ 90
  · have hl : Char.toLower c = Char.ofNat (c.toNat + 32) := by
      rw [Char.toLower, if_pos h]
    rw [hl]
    obtain ⟨h1, h2⟩ := h
    set n := c.toNat with hn
    interval_cases n <;> decide
  · have hl : Char.toLower c = c := by
      rw [Char.toLower, if_neg h]
    rw [hl]
    exact h

theorem jsLower_no_upper (s : String) {c : Char} (hc : c ∈ (jsLower s).data) :
    ¬(65 ≤ c.toNat ∧ c.toNat ≤ 90) := by
  simp only [jsLower, List.mem_map] at hc
  rcases hc with ⟨d, _, rfl⟩
  exact toLower_not_upper d

theorem attrsOf_lower {el : Elem} {a : String} (ha : a ∈ attrsOf el) :
    ∃ s, a = jsLower s := by
  unfold attrsOf at ha
  rw [List.mem_append] at ha
  rcases ha with ha | ha
  · rcases List.mem_map.mp ha with ⟨s, _, rfl⟩
    exact ⟨s, rfl⟩
  · cases hl : el.labelText with
    | some l =>
      simp only [hl] at ha
      split at ha
      · rcases List.mem_singleton.mp ha with rfl
        exact ⟨l, rfl⟩
      · simp at ha
    | none =>
      simp only [hl] at ha
      simp at ha

/-- No descriptive string gathered by the classifier contains an uppercase
ASCII letter, in particular not `N`: they are all lowercased. -/
theorem attrsOf_no_upper_N {el : Elem} {a : String} (ha : a ∈ attrsOf el) :
    ('N' : Char) ∉ a.data := by
  rcases attrsOf_lower ha with ⟨s, rfl⟩
  intro hm
  exact jsLower_no_upper s hm (by decide)

/-! ### Category-matching facts -/

/-- Any lowercase-matchable alias of `firstName` contains `name`, so a
`firstName` match forces a `name` match. -/
theorem catMatches_first_to_name (el : Elem)
    (h : catMatches el ["first_name", "firstname", "given-name", "firstName"] = true) :
    catMatches el ["name", "full_name", "fullname", "applicant_name"] = true := by
  simp only [catMatches, List.any_eq_true] at h ⊢
  rcases h with ⟨kw, hkw, a, ha, hinc⟩
  simp only [List.mem_cons, List.not_mem_nil, or_false] at hkw
  rcases hkw with rfl | rfl | rfl | rfl
  · exact ⟨"name", by simp, a, ha, jsIncludes_trans hinc (by decide)⟩
  · exact ⟨"name", by simp, a, ha, jsIncludes_trans hinc (by decide)⟩
  · exact ⟨"name", by simp, a, ha, jsIncludes_trans hinc (by decide)⟩
  · exact absurd (mem_of_jsIncludes hinc (by decide)) (attrsOf_no_upper_N ha)

/-- Any lowercase-matchable alias of `lastName` contains `name`, so a
`lastName` match forces a `name` match. -/
theorem catMatches_last_to_name (el : Elem)
    (h : catMatches el ["last_name", "lastname", "family-name", "lastName"] = true) :
    catMatches el ["name", "full_name", "fullname", "applicant_name"] = true := by
  simp only [catMatches, List.any_eq_true] at h ⊢
  rcases h with ⟨kw, hkw, a, ha, hinc⟩
  simp only [List.mem_cons, List.not_mem_nil, or_false] at hkw
  rcases hkw with rfl | rfl | rfl | rfl
  · exact ⟨"name", by simp, a, ha, jsIncludes_trans hinc (by decide)⟩
  · exact ⟨"name", by simp, a, ha, jsIncludes_trans hinc (by decide)⟩
  · exact ⟨"name", by simp, a, ha, jsIncludes_trans hinc (by decide)⟩
  · exact absurd (mem_of_jsIncludes hinc (by decide)) (attrsOf_no_upper_N ha)

theorem find?_step_true {α : Type} (p : α → Bool) (a : α) (l : List α)
    (h : p a = true) : List.find? p (a :: l) = some a := by
  rw [List.find?_cons, h]

theorem find?_step_false {α : Type} (p : α → Bool) (a : α) (l : List α)
    (h : p a = false) : List.find? p (a :: l) = List.find? p l := by
  rw [List.find?_cons, h]

/-- The element of the `linkedin_github` example: id `linkedin_github`,
nothing else descriptive. -/
def lgElem : Elem :=
  { tagName := "input", typeAttr := some "text", nameAttr := none,
    idAttr := some "linkedin_github", placeholder := none, ariaLabel := none,
    labelText := none, options := [], value := "", failAt := none }

example : identifyFieldType lgElem = some "portfolio" := by decide

/-- C1 (counterexample): the element whose id is `linkedin_github` is NOT
classified as `linkedin`: it is classified as `portfolio`, because the
`portfolio` category is declared before `linkedin` and its aliases include
`github` and `linkedin`. -/
theorem classify_linkedin_github_cex :
    identifyFieldType lgElem = some "portfolio" ∧
      identifyFieldType lgElem ≠ some "linkedin" := by
  constructor
  · decide
  · decide

/-- C1 (amended): whenever `identifyFieldType` classifies an element, the
returned category is the earliest one in the declaration order of
`FIELD_MAP` whose aliases match — every category declared before it fails
to match; in particular the element whose id is `linkedin_github` is
classified as `portfolio` (declared before both `linkedin` and `github`,
with aliases containing both), not as `linkedin`. -/
theorem classify_first_declared_wins :
    (∀ (el : Elem) (key : String), identifyFieldType el = some key →
      ∃ aliases pre post, FIELD_MAP = pre ++ ((key, aliases) :: post) ∧
        catMatches el aliases = true ∧
        ∀ e ∈ pre, catMatches el e.2 = false) ∧
    identifyFieldType lgElem = some "portfolio" := by
  constructor
  · intro el key h
    rcases Option.map_eq_some'.mp h with ⟨b, hfind, hkey⟩
    rw [List.find?_eq_some] at hfind
    obtain ⟨hpb, as, bs, hsplit, hprev⟩ := hfind
    refine ⟨b.2, as, bs, ?_, hpb, ?_⟩
    · rw [hsplit, ← hkey]
    · intro e he
      simpa using hprev e he
  · decide

/-- C1 (witness): the amended first-match property, instantiated at the
`linkedin_github` element and the `portfolio` category. -/
theorem classify_first_declared_wins_witness :
    ∃ aliases pre post, FIELD_MAP = pre ++ (("portfolio", aliases) :: post) ∧
      catMatches lgElem aliases = true ∧
      ∀ e ∈ pre, catMatches lgElem e.2 = false :=
  classify_first_declared_wins.1 lgElem "portfolio" (by decide)

/-- C2: `identifyFieldType` never returns `firstName` or `lastName`: every
alias of those categories that can match a lowercased descriptive string
contains the substring `name`, an alias of the `name` category declared
earlier, so `name` always wins first. -/
theorem classify_never_firstName_lastName (el : Elem) :
    identifyFieldType el ≠ some "firstName" ∧
      identifyFieldType el ≠ some "lastName" := by
  by_cases hn : catMatches el ["name", "full_name", "fullname", "applicant_name"] = true
  · have hid : identifyFieldType el = some "name" := by
      unfold identifyFieldType FIELD_MAP
      rw [find?_step_true (fun e : String × List String => catMatches el e.2) _ _ hn]
      rfl
    rw [hid]
    exact ⟨by decide, by decide⟩
  · have hnf : catMatches el ["name", "full_name", "fullname", "applicant_name"] = false := by
      simpa using hn
    have h1 : catMatches el ["first_name", "firstname", "given-name", "firstName"] = false := by
      rcases Bool.eq_false_or_eq_true
          (catMatches el ["first_name", "firstname", "given-name", "firstName"]) with h | h
      · exact absurd (catMatches_first_to_name el h) hn
      · exact h
    have h2 : catMatches el ["last_name", "lastname", "family-name", "lastName"] = false := by
      rcases Bool.eq_false_or_eq_true
          (catMatches el ["last_name", "lastname", "family-name", "lastName"]) with h | h
      · exact absurd (catMatches_last_to_name el h) hn
      · exact h
    have hid : identifyFieldType el =
        (List.find? (fun e => catMatches el e.2)
          [("email", ["email", "email_address"]),
           ("phone", ["phone", "phone_number", "tel"]),
           ("location", ["location", "city", "address", "country"]),
           ("portfolio", ["portfolio", "website", "site", "personal_site", "github", "linkedin"]),
           ("resume", ["resume", "cv", "upload_resume"]),
           ("coverLetter", ["coverletter", "cover_letter"]),
           ("linkedin", ["linkedin", "linkedin_url"]),
           ("github", ["github", "github_url"])]).map Prod.fst := by
      unfold identifyFieldType FIELD_MAP
      rw [find?_step_false (fun e : String × List String => catMatches el e.2) _ _ hnf,
        find?_step_false (fun e : String × List String => catMatches el e.2) _ _ h1,
        find?_step_false (fun e : String × List String => catMatches el e.2) _ _ h2]
    rw [hid]
    constructor <;> intro heq <;>
    · rcases Option.map_eq_some'.mp heq with ⟨b, hfind, hkey⟩
      have hb := List.mem_of_find?_eq_some hfind
      simp only [List.mem_cons, List.not_mem_nil, or_false] at hb
      rcases hb with rfl | rfl | rfl | rfl | rfl | rfl | rfl | rfl <;> simp at hkey

/-! ### Concrete fixtures used by witnesses -/

/-- An empty profile: every key missing. -/
def pEmpty : Profile :=
  { fullName := none, firstName := none, lastName := none, email := none,
    phone := none, location := none, city := none, portfolio := none,
    website := none, linkedin := none, github := none }

/-- The Ada Lovelace profile of the spec's name-fallback example. -/
def pAda : Profile :=
  { pEmpty with firstName := some "Ada", lastName := some "Lovelace" }

/-- A profile whose first truthy portfolio-chain key is `website`. -/
def pSite : Profile :=
  { pEmpty with website := some "w.example", linkedin := some "ln.example" }

/-- A text input whose id is `resume`. -/
def resumeElem : Elem :=
  { lgElem with idAttr := some "resume" }

/-- C10: for input (and textarea) elements of kind checkbox or radio,
`fillElement` returns false and leaves the element unmodified, whatever
the value. -/
theorem fill_checkbox_radio (el : Elem) (v : String)
    (htag : jsLower el.tagName = "input" ∨ jsLower el.tagName = "textarea")
    (hty : jsLower (el.typeAttr.getD "") = "checkbox" ∨
      jsLower (el.typeAttr.getD "") = "radio") :
    fillElement (some el) (some v) = (false, some el) := by
  have htf : tryFill el v = (Except.ok false, el) := by
    unfold tryFill
    rw [if_pos htag, if_pos hty]
  simp [fillElement, fillCore, htf]

/-- C10 (witness): a checkbox input is rejected. -/
theorem fill_checkbox_radio_witness :
    fillElement (some { lgElem with typeAttr := some "checkbox" }) (some "yes") =
      (false, some { lgElem with typeAttr := some "checkbox" }) :=
  fill_checkbox_radio _ "yes" (Or.inl (by decide)) (Or.inl (by decide))

/-- C5: when no form matches the job keywords, `autoFillForms` reports
`No form detected` and returns the document unchanged (zero DOM writes);
when forms match but the collaborator yields no profile, it reports
`No profile data`, again with the document unchanged. -/
theorem autofill_guards (forms : List Form) (prof : Option Profile) :
    (detectJobForm forms = none →
      autoFillForms forms prof =
        ({ success := false, reason := some "No form detected", count := none }, forms)) ∧
    (detectJobForm forms ≠ none →
      autoFillForms forms none =
        ({ success := false, reason := some "No profile data", count := none }, forms)) := by
  constructor
  · intro h
    unfold autoFillForms
    rw [h]
  · intro h
    unfold autoFillForms
    rcases hd : detectJobForm forms with _ | ms
    · exact absurd hd h
    · rfl

/-- C5 (witness): a keyword-free document short-circuits with
`No form detected`; a matching form with no profile data short-circuits
with `No profile data`. -/
theorem autofill_guards_witness :
    autoFillForms [{ innerText := "hello world", inputs := [] }] none =
      ({ success := false, reason := some "No form detected", count := none },
        [{ innerText := "hello world", inputs := [] }]) ∧
    autoFillForms [{ innerText := "apply here", inputs := [] }] none =
      ({ success := false, reason := some "No profile data", count := none },
        [{ innerText := "apply here", inputs := [] }]) :=
  ⟨(autofill_guards [{ innerText := "hello world", inputs := [] }] none).1 (by decide),
   (autofill_guards [{ innerText := "apply here", inputs := [] }] none).2 (by decide)⟩

/-- C9: the per-category value resolution has no case for `resume` or
`coverLetter`, so an element classified as either keeps a `null` candidate
value, is never filled, never counted and left unmodified. -/
theorem resume_coverletter_never_filled (p : Profile) (el : Elem) :
    resolveValue p "resume" = none ∧ resolveValue p "coverLetter" = none ∧
    ((identifyFieldType el = some "resume" ∨ identifyFieldType el = some "coverLetter") →
      processElem p el = (false, el)) := by
  refine ⟨rfl, rfl, ?_⟩
  intro h
  unfold processElem
  rcases h with h | h <;> rw [h] <;> rfl

/-- C9 (witness): an element whose id is `resume` is classified as
`resume`, not filled and not counted. -/
theorem resume_coverletter_never_filled_witness :
    processElem pAda resumeElem = (false, resumeElem) :=
  (resume_coverletter_never_filled pAda resumeElem).2.2 (Or.inl (by decide))

theorem resolveValue_name (p : Profile) :
    resolveValue p "name" = jsOr p.fullName (some (joinFiltered p.firstName p.lastName)) := rfl

theorem resolveValue_portfolio (p : Profile) :
    resolveValue p "portfolio" =
      jsOr (jsOr (jsOr p.portfolio p.website) p.linkedin) p.github := rfl

/-- C7: a `name` field resolves to `profile.fullName` when truthy, else to
the space-joined concatenation of the present, non-empty halves of
`firstName` and `lastName` (so Ada/Lovelace with no `fullName` yields
`"Ada Lovelace"`); a `portfolio` field resolves to the first truthy value
among `portfolio`, `website`, `linkedin`, `github`, in that order. -/
theorem resolve_name_and_portfolio (p : Profile) :
    (truthy p.fullName = true → resolveValue p "name" = p.fullName) ∧
    (truthy p.fullName = false →
      resolveValue p "name" = some (joinFiltered p.firstName p.lastName)) ∧
    (∀ v, List.find? truthy [p.portfolio, p.website, p.linkedin, p.github] = some v →
      resolveValue p "portfolio" = v) ∧
    resolveValue pAda "name" = some "Ada Lovelace" := by
  refine ⟨?_, ?_, ?_, by decide⟩
  · intro h
    rw [resolveValue_name]
    unfold jsOr
    rw [if_pos h]
  · intro h
    rw [resolveValue_name]
    unfold jsOr
    rw [if_neg (by simp [h])]
  · intro v hv
    rw [resolveValue_portfolio]
    cases h1 : truthy p.portfolio with
    | true =>
      rw [find?_step_true truthy _ _ h1] at hv
      injection hv with hv
      subst hv
      simp [jsOr, h1]
    | false =>
      rw [find?_step_false truthy _ _ h1] at hv
      cases h2 : truthy p.website with
      | true =>
        rw [find?_step_true truthy _ _ h2] at hv
        injection hv with hv
        subst hv
        simp [jsOr, h1, h2]
      | false =>
        rw [find?_step_false truthy _ _ h2] at hv
        cases h3 : truthy p.linkedin with
        | true =>
          rw [find?_step_true truthy _ _ h3] at hv
          injection hv with hv
          subst hv
          simp [jsOr, h1, h2, h3]
        | false =>
          rw [find?_step_false truthy _ _ h3] at hv
          cases h4 : truthy p.github with
          | true =>
            rw [find?_step_true truthy _ _ h4] at hv
            injection hv with hv
            subst hv
            simp [jsOr, h1, h2, h3]
          | false =>
            rw [find?_step_false truthy _ _ h4] at hv
            simp [List.find?] at hv

/-- C7 (witness): the Ada/Lovelace fallback and the website link chosen as
the first truthy portfolio-chain key. -/
theorem resolve_name_and_portfolio_witness :
    truthy pAda.fullName = false ∧
    resolveValue pAda "name" = some (joinFiltered pAda.firstName pAda.lastName) ∧
    resolveValue pSite "portfolio" = some "w.example" :=
  ⟨by decide, (resolve_name_and_portfolio pAda).2.1 (by decide),
   (resolve_name_and_portfolio pSite).2.2.1 (some "w.example") (by decide)⟩

/-- C6: on a well-behaved select element, `fillElement` succeeds exactly
when some option's visible text or underlying value equals the candidate
value case-insensitively (after trimming) — an exact match, never a
substring or fuzzy match; and whenever no option matches, the element is
left unmodified and the fill reports false (hostile or not). -/
theorem fill_select_exact (el : Elem) (v : String)
    (htag : jsLower el.tagName = "select") :
    (el.failAt = none →
      ((fillCore el (some v)).1 = true ↔
        ∃ o ∈ el.options,
          jsLower (jsTrim o.text) = jsLower (jsTrim v) ∨
            jsLower (jsTrim o.value) = jsLower (jsTrim v))) ∧
    ((∀ o ∈ el.options,
        ¬(jsLower (jsTrim o.text) = jsLower (jsTrim v) ∨
          jsLower (jsTrim o.value) = jsLower (jsTrim v))) →
      fillCore el (some v) = (false, el)) := by
  have hni : ¬(jsLower el.tagName = "input" ∨ jsLower el.tagName = "textarea") := by
    rw [htag]
    rintro (h | h) <;> simp at h
  have htf : tryFill el v =
      match el.options.find? (optionMatches v) with
      | some m =>
        match runOps (selectOps m.value) el 0 with
        | (Except.ok _, el') => (Except.ok true, el')
        | (Except.error e, el') => (Except.error e, el')
      | none => (Except.ok false, el) := by
    unfold tryFill
    rw [if_neg hni, if_pos htag]
  constructor
  · intro hfail
    rcases hfind : el.options.find? (optionMatches v) with _ | m
    · have hall := List.find?_eq_none.mp hfind
      simp only [fillCore, htf, hfind]
      constructor
      · intro h
        simp at h
      · rintro ⟨o, ho, hm⟩
        have hom : optionMatches v o = true := by
          simpa [optionMatches] using hm
        exact absurd hom (hall o ho)
    · have hrun : runOps (selectOps m.value) el 0 =
          (Except.ok (), { el with value := m.value }) := by
        simp [selectOps, runOps, applyOp, hfail]
      simp only [fillCore, htf, hfind, hrun]
      constructor
      · intro _
        exact ⟨m, List.mem_of_find?_eq_some hfind,
          by simpa [optionMatches] using List.find?_some hfind⟩
      · intro _
        trivial
  · intro hnone
    have hfind : el.options.find? (optionMatches v) = none := by
      rw [List.find?_eq_none]
      intro o ho
      simpa [optionMatches] using hnone o ho
    simp only [fillCore, htf, hfind]

/-- A select element offering `Remote work` and `On-site`. -/
def selRemoteWork : Elem :=
  { lgElem with
    tagName := "select",
    idAttr := some "location",
    options := [{ text := "Remote work", value := "remote_work" },
                { text := "On-site", value := "onsite" }] }

/-- A select element whose only option is ` REMOTE `. -/
def selRemoteExact : Elem :=
  { lgElem with
    tagName := "select",
    idAttr := some "location",
    options := [{ text := " REMOTE ", value := "r1" }] }

/-- C6 (witness): a select offering `Remote work` / `On-site` has no exact
match for `Remote` (no substring matching), so the fill is a no-op; with
an exact ` REMOTE ` option (differing only in case and surrounding
whitespace) the fill succeeds. -/
theorem fill_select_exact_witness :
    fillCore selRemoteWork (some "Remote") = (false, selRemoteWork) ∧
    (fillCore selRemoteExact (some "Remote")).1 = true :=
  ⟨(fill_select_exact selRemoteWork "Remote" (by decide)).2 (by decide),
   ((fill_select_exact selRemoteExact "Remote" (by decide)).1 (by decide)).mpr
     ⟨{ text := " REMOTE ", value := "r1" }, by decide, by decide⟩⟩

theorem runOps_fillOps_ok {el : Elem} {v : String} {e : Elem}
    (h : runOps (fillOps v) el 0 = (Except.ok (), e)) : e.value = v := by
  simp only [fillOps, runOps, applyOp] at h
  split_ifs at h with h0 h1 h2 h3 h4
  · simp at h
  · simp at h
  · simp at h
  · simp at h
  · simp at h
  · simp only [Prod.mk.injEq] at h
    rw [← h.2]

theorem runOps_selectOps_ok {el : Elem} {v : String} {e : Elem}
    (h : runOps (selectOps v) el 0 = (Except.ok (), e)) : e.value = v := by
  simp only [selectOps, runOps, applyOp] at h
  split_ifs at h with h0 h1
  · simp at h
  · simp at h
  · simp only [Prod.mk.injEq] at h
    rw [← h.2]

/-- Inversion of a successful `tryFill`: success writes the candidate value
(input/textarea) or a matching option's underlying value (select). -/
theorem tryFill_ok_true {el : Elem} {v : String} {e : Elem}
    (h : tryFill el v = (Except.ok true, e)) :
    e.value = v ∨ ∃ o ∈ el.options, optionMatches v o = true ∧ e.value = o.value := by
  simp only [tryFill] at h
  split_ifs at h with h1 h2 h3
  · simp at h
  · rcases hr : runOps (fillOps v) el 0 with ⟨rr, e3⟩
    rw [hr] at h
    cases rr with
    | ok u =>
      cases u
      simp only [Prod.mk.injEq, Except.ok.injEq, true_and] at h
      exact Or.inl (h ▸ runOps_fillOps_ok hr)
    | error u => simp at h
  · rcases hf : el.options.find? (optionMatches v) with _ | m
    · simp [hf] at h
    · simp only [hf] at h
      rcases hr : runOps (selectOps m.value) el 0 with ⟨rr, e3⟩
      rw [hr] at h
      cases rr with
      | ok u =>
        cases u
        simp only [Prod.mk.injEq, Except.ok.injEq, true_and] at h
        exact Or.inr ⟨m, List.mem_of_find?_eq_some hf, List.find?_some hf,
          h ▸ runOps_selectOps_ok hr⟩
      | error u => simp at h
  · simp at h

/-- C4: `fillElement` is total and all error paths yield `false`: a thrown
exception during the fill is caught and converted to a `false` return
(never propagated), the fill reports `true` exactly when the `try` block
ran to completion, a successful fill has actually written the value, and
the `null`-element and `null`-value guards also return `false`. -/
theorem fill_total_and_caught (el : Elem) (v : String) :
    ((tryFill el v).1 = Except.error () →
      fillElement (some el) (some v) = (false, some (tryFill el v).2)) ∧
    ((fillElement (some el) (some v)).1 = true ↔ (tryFill el v).1 = Except.ok true) ∧
    ((fillElement (some el) (some v)).1 = true →
      ((fillCore el (some v)).2.value = v ∨
        ∃ o ∈ el.options, optionMatches v o = true ∧
          (fillCore el (some v)).2.value = o.value)) ∧
    (fillElement (some el) none).1 = false ∧
    (fillElement none (some v)).1 = false := by
  rcases htf : tryFill el v with ⟨r, e2⟩
  have hfc : fillCore el (some v) =
      match (r, e2) with
      | (Except.ok b, el') => (b, el')
      | (Except.error _, el') => (false, el') := by
    simp only [fillCore]
    rw [htf]
  refine ⟨?_, ?_, ?_, rfl, rfl⟩
  · intro h
    simp only at h
    subst h
    simp [fillElement, hfc]
  · cases r with
    | ok b =>
      cases b <;> simp [fillElement, hfc]
    | error u =>
      cases u
      simp [fillElement, hfc]
  · intro h
    cases r with
    | error u =>
      cases u
      simp [fillElement, hfc] at h
    | ok b =>
      cases b with
      | false => simp [fillElement, hfc] at h
      | true =>
        have h2 : (fillCore el (some v)).2 = e2 := by
          simp [hfc]
        rw [h2]
        exact tryFill_ok_true htf

/-- A hostile text input: it throws at the first DOM operation of any fill
attempt. -/
def hostileElem : Elem :=
  { lgElem with idAttr := some "phone", failAt := some 0 }

/-- C4 (witness): a hostile element's exception is caught and converted to
a `false` return. -/
theorem fill_total_and_caught_witness :
    fillElement (some hostileElem) (some "12345") =
      (false, some (tryFill hostileElem "12345").2) :=
  (fill_total_and_caught hostileElem "12345").1 (by rfl)

/-! ### Idempotence of the autofill pass

The DOM operations of a fill only ever write the element's `value`; every
other field (the descriptive strings, the option list, the tag, the
hostility index) is untouched.  Re-running the same fill therefore replays
the same operation prefix and rewrites the same value. -/

theorem runOps_shape : ∀ (ops : List DomOp) (el : Elem) (i : Nat),
    ∃ w, (runOps ops el i).2 = { el with value := w }
  | [], el, _ => ⟨el.value, rfl⟩
  | op :: rest, el, i => by
    by_cases hf : el.failAt = some i
    · refine ⟨el.value, ?_⟩
      simp only [runOps]
      rw [if_pos hf]
    · rcases runOps_shape rest (applyOp op el) (i + 1) with ⟨w2, hw⟩
      refine ⟨w2, ?_⟩
      have hstep : runOps (op :: rest) el i = runOps rest (applyOp op el) (i + 1) := by
        simp only [runOps]
        rw [if_neg hf]
      rw [hstep, hw]
      cases op <;> rfl

theorem runOps_idem : ∀ (ops : List DomOp) (el : Elem) (i : Nat),
    runOps ops (runOps ops el i).2 i = runOps ops el i
  | [], _, _ => rfl
  | op :: rest, el, i => by
    by_cases hf : el.failAt = some i
    · simp only [runOps]
      rw [if_pos hf]
      simp only [runOps]
      rw [if_pos hf]
    · have hstep : runOps (op :: rest) el i = runOps rest (applyOp op el) (i + 1) := by
        simp only [runOps]
        rw [if_neg hf]
      rw [hstep]
      rcases hr : runOps rest (applyOp op el) (i + 1) with ⟨r, e⟩
      rcases runOps_shape rest (applyOp op el) (i + 1) with ⟨w2, hw⟩
      rw [hr] at hw
      have he2 : e = { applyOp op el with value := w2 } := hw
      have hef : e.failAt = el.failAt := by
        rw [he2]
        cases op <;> rfl
      show runOps (op :: rest) e i = (r, e)
      have hstep2 : runOps (op :: rest) e i = runOps rest (applyOp op e) (i + 1) := by
        simp only [runOps]
        rw [hef, if_neg hf]
      rw [hstep2]
      cases op with
      | focus =>
        have ih := runOps_idem rest (applyOp DomOp.focus el) (i + 1)
        rw [hr] at ih
        exact ih
      | setVal w =>
        have heq : applyOp (DomOp.setVal w) e = applyOp (DomOp.setVal w) el := by
          rw [he2]
          rfl
        rw [heq]
        exact hr
      | dispatchEvent ev =>
        have ih := runOps_idem rest (applyOp (DomOp.dispatchEvent ev) el) (i + 1)
        rw [hr] at ih
        exact ih
      | blur =>
        have ih := runOps_idem rest (applyOp DomOp.blur el) (i + 1)
        rw [hr] at ih
        exact ih

theorem tryFill_shape (el : Elem) (v : String) :
    ∃ w, (tryFill el v).2 = { el with value := w } := by
  simp only [tryFill]
  split_ifs with h1 h2 h3
  · exact ⟨el.value, rfl⟩
  · rcases hr : runOps (fillOps v) el 0 with ⟨r, e⟩
    rcases runOps_shape (fillOps v) el 0 with ⟨w, hw⟩
    rw [hr] at hw
    refine ⟨w, ?_⟩
    cases r with
    | ok u => exact hw
    | error u => exact hw
  · rcases hf : el.options.find? (optionMatches v) with _ | m
    · refine ⟨el.value, ?_⟩
      simp only [hf]
    · rcases hr : runOps (selectOps m.value) el 0 with ⟨r, e⟩
      rcases runOps_shape (selectOps m.value) el 0 with ⟨w, hw⟩
      rw [hr] at hw
      refine ⟨w, ?_⟩
      simp only [hf]
      rw [hr]
      cases r with
      | ok u => exact hw
      | error u => exact hw
  · exact ⟨el.value, rfl⟩

theorem tryFill_idem (el : Elem) (v : String) :
    tryFill (tryFill el v).2 v = tryFill el v := by
  by_cases h1 : jsLower el.tagName = "input" ∨ jsLower el.tagName = "textarea"
  · by_cases h2 : jsLower (el.typeAttr.getD "") = "checkbox" ∨
        jsLower (el.typeAttr.getD "") = "radio"
    · have he : tryFill el v = (Except.ok false, el) := by
        simp only [tryFill]
        rw [if_pos h1, if_pos h2]
      rw [he]
      exact he
    · rcases hr : runOps (fillOps v) el 0 with ⟨r, e⟩
      rcases runOps_shape (fillOps v) el 0 with ⟨w2, hw2⟩
      rw [hr] at hw2
      have he2 : e = { el with value := w2 } := hw2
      have hidem := runOps_idem (fillOps v) el 0
      rw [hr] at hidem
      have hidem2 : runOps (fillOps v) e 0 = (r, e) := hidem
      have h1e : jsLower e.tagName = "input" ∨ jsLower e.tagName = "textarea" := by
        rw [he2]
        exact h1
      have h2e : ¬(jsLower (e.typeAttr.getD "") = "checkbox" ∨
          jsLower (e.typeAttr.getD "") = "radio") := by
        rw [he2]
        exact h2
      have hmain : tryFill el v =
          (match (r, e) with
            | (Except.ok _, el') => ((Except.ok true : Except Unit Bool), el')
            | (Except.error er, el') => (Except.error er, el')) := by
        simp only [tryFill]
        rw [if_pos h1, if_neg h2, hr]
      have hmain2 : tryFill e v =
          (match (r, e) with
            | (Except.ok _, el') => ((Except.ok true : Except Unit Bool), el')
            | (Except.error er, el') => (Except.error er, el')) := by
        simp only [tryFill]
        rw [if_pos h1e, if_neg h2e, hidem2]
      cases r with
      | ok u =>
        rw [hmain]
        show tryFill e v = (Except.ok true, e)
        rw [hmain2]
      | error u =>
        rw [hmain]
        show tryFill e v = (Except.error u, e)
        rw [hmain2]
  · by_cases h3 : jsLower el.tagName = "select"
    · rcases hf : el.options.find? (optionMatches v) with _ | m
      · have he : tryFill el v = (Except.ok false, el) := by
          simp only [tryFill]
          rw [if_neg h1, if_pos h3]
          simp only [hf]
        rw [he]
        exact he
      · rcases hr : runOps (selectOps m.value) el 0 with ⟨r, e⟩
        rcases runOps_shape (selectOps m.value) el 0 with ⟨w2, hw2⟩
        rw [hr] at hw2
        have he2 : e = { el with value := w2 } := hw2
        have hidem := runOps_idem (selectOps m.value) el 0
        rw [hr] at hidem
        have hidem2 : runOps (selectOps m.value) e 0 = (r, e) := hidem
        have h1e : ¬(jsLower e.tagName = "input" ∨ jsLower e.tagName = "textarea") := by
          rw [he2]
          exact h1
        have h3e : jsLower e.tagName = "select" := by
          rw [he2]
          exact h3
        have hfe : e.options.find? (optionMatches v) = some m := by
          rw [he2]
          exact hf
        have hmain : tryFill el v =
            (match (r, e) with
              | (Except.ok _, el') => ((Except.ok true : Except Unit Bool), el')
              | (Except.error er, el') => (Except.error er, el')) := by
          simp only [tryFill]
          rw [if_neg h1, if_pos h3]
          simp only [hf]
          rw [hr]
        have hmain2 : tryFill e v =
            (match (r, e) with
              | (Except.ok _, el') => ((Except.ok true : Except Unit Bool), el')
              | (Except.error er, el') => (Except.error er, el')) := by
          simp only [tryFill]
          rw [if_neg h1e, if_pos h3e]
          simp only [hfe]
          rw [hidem2]
        cases r with
        | ok u =>
          rw [hmain]
          show tryFill e v = (Except.ok true, e)
          rw [hmain2]
        | error u =>
          rw [hmain]
          show tryFill e v = (Except.error u, e)
          rw [hmain2]
    · have he : tryFill el v = (Except.ok false, el) := by
        simp only [tryFill]
        rw [if_neg h1, if_neg h3]
      rw [he]
      exact he

theorem fillCore_shape (el : Elem) (v : Option String) :
    ∃ w, (fillCore el v).2 = { el with value := w } := by
  cases v with
  | none => exact ⟨el.value, rfl⟩
  | some s =>
    rcases htf : tryFill el s with ⟨r, e⟩
    rcases tryFill_shape el s with ⟨w, hw⟩
    rw [htf] at hw
    refine ⟨w, ?_⟩
    simp only [fillCore]
    rw [htf]
    cases r with
    | ok b => exact hw
    | error u => exact hw

theorem fillCore_idem (el : Elem) (v : Option String) :
    fillCore (fillCore el v).2 v = fillCore el v := by
  cases v with
  | none => rfl
  | some s =>
    rcases htf : tryFill el s with ⟨r, e⟩
    have hti := tryFill_idem el s
    rw [htf] at hti
    have hfc : fillCore el (some s) =
        (match (r, e) with
          | (Except.ok b, el') => (b, el')
          | (Except.error _, el') => (false, el')) := by
      simp only [fillCore]
      rw [htf]
    cases r with
    | ok b =>
      rw [hfc]
      show fillCore e (some s) = (b, e)
      simp only [fillCore]
      rw [show tryFill e s = (Except.ok b, e) from hti]
    | error u =>
      rw [hfc]
      show fillCore e (some s) = (false, e)
      simp only [fillCore]
      rw [show tryFill e s = (Except.error u, e) from hti]

theorem processElem_idem (p : Profile) (el : Elem) :
    processElem p (processElem p el).2 = processElem p el := by
  rcases hid : identifyFieldType el with _ | key
  · have hpe : processElem p el = (false, el) := by
      simp only [processElem, hid]
    rw [hpe]
    exact hpe
  · have hpe : processElem p el =
        if truthy (resolveValue p key) = true then fillCore el (resolveValue p key)
        else (false, el) := by
      simp only [processElem, hid]
    by_cases ht : truthy (resolveValue p key) = true
    · rw [if_pos ht] at hpe
      rcases fillCore_shape el (resolveValue p key) with ⟨w, hw⟩
      rw [hpe, hw]
      have hidw : identifyFieldType { el with value := w } = some key := hid
      simp only [processElem, hidw]
      rw [if_pos ht, ← hw]
      exact fillCore_idem el (resolveValue p key)
    · rw [if_neg ht] at hpe
      rw [hpe]
      exact hpe

theorem processInputs_idem (p : Profile) : ∀ l : List Elem,
    processInputs p (processInputs p l).2 = processInputs p l
  | [] => rfl
  | el :: rest => by
    have h1 := processElem_idem p el
    have h2 := processInputs_idem p rest
    simp only [processInputs]
    rw [h1, h2]

theorem fillForm_idem (p : Profile) (f : Form) :
    fillForm p (fillForm p f).2 = fillForm p f := by
  have h := processInputs_idem p f.inputs
  show ((processInputs p (processInputs p f.inputs).2).1,
      { f with inputs := (processInputs p (processInputs p f.inputs).2).2 }) =
    ((processInputs p f.inputs).1, { f with inputs := (processInputs p f.inputs).2 })
  rw [h]

/-- One document step of `autoFillForms`: fill a form when it matches the
keywords, leave it alone otherwise.  Filling does not change the form's
text, so re-applying the step reproduces the same form. -/
theorem docStep_idem (p : Profile) (f : Form) :
    (if formMatches ((if formMatches f then fillForm p f else (0, f)).2) = true
       then fillForm p ((if formMatches f then fillForm p f else (0, f)).2)
       else (0, (if formMatches f then fillForm p f else (0, f)).2)).2 =
    (if formMatches f then fillForm p f else (0, f)).2 := by
  by_cases hm : formMatches f = true
  · simp only [if_pos hm]
    have hf2 : formMatches (fillForm p f).2 = true := hm
    simp only [if_pos hf2]
    exact congrArg Prod.snd (fillForm_idem p f)
  · simp only [if_neg hm]

theorem formMatches_docStep (p : Profile) (f : Form) :
    formMatches ((if formMatches f then fillForm p f else (0, f)).2) = formMatches f := by
  by_cases hm : formMatches f = true
  · simp only [if_pos hm]
    rfl
  · simp only [if_neg hm]

theorem filter_matches_map (p : Profile) : ∀ l : List Form,
    (List.filter formMatches
      (l.map (fun f => (if formMatches f then fillForm p f else (0, f)).2))).length =
    (List.filter formMatches l).length
  | [] => rfl
  | f :: t => by
    simp only [List.map_cons, List.filter_cons, formMatches_docStep]
    by_cases hm : formMatches f = true
    · simp only [if_pos hm, List.length_cons, filter_matches_map p t]
    · simp only [if_neg hm, filter_matches_map p t]

theorem detect_none_iff (l : List Form) :
    detectJobForm l = none ↔ (l.filter formMatches).length = 0 := by
  unfold detectJobForm
  split_ifs with h
  · constructor
    · intro hc
      cases hc
    · intro h0
      omega
  · constructor
    · intro _
      omega
    · intro _
      rfl

theorem autoFill_doc (forms : List Form) (p : Profile)
    (hd : detectJobForm forms ≠ none) :
    (autoFillForms forms (some p)).2 =
      forms.map (fun f => (if formMatches f then fillForm p f else (0, f)).2) := by
  rcases h : detectJobForm forms with _ | ms
  · exact absurd h hd
  · simp only [autoFillForms, h, List.map_map]
    rfl

/-- C8: `autoFillForms` is idempotent on the document: running it a second
time with the same profile rewrites every matched field with the identical
value, so the document after two runs equals the document after one run —
no duplication or accumulation. -/
theorem autofill_idempotent (forms : List Form) (prof : Option Profile) :
    (autoFillForms (autoFillForms forms prof).2 prof).2 = (autoFillForms forms prof).2 := by
  rcases hd : detectJobForm forms with _ | ms
  · have h1 : autoFillForms forms prof =
        ({ success := false, reason := some "No form detected", count := none }, forms) := by
      simp only [autoFillForms, hd]
    rw [h1]
    show (autoFillForms forms prof).2 = forms
    rw [h1]
  · cases prof with
    | none =>
      have h1 : autoFillForms forms none =
          ({ success := false, reason := some "No profile data", count := none }, forms) := by
        simp only [autoFillForms, hd]
      rw [h1]
      show (autoFillForms forms none).2 = forms
      rw [h1]
    | some p =>
      have hne : ¬ (forms.filter formMatches).length = 0 := by
        intro h0
        have h0' := (detect_none_iff forms).mpr h0
        rw [hd] at h0'
        exact Option.noConfusion h0'
      have hdoc1 : (autoFillForms forms (some p)).2 =
          forms.map (fun f => (if formMatches f then fillForm p f else (0, f)).2) :=
        autoFill_doc forms p (by rw [hd]; exact fun hc => Option.noConfusion hc)
      have hd2 : detectJobForm (autoFillForms forms (some p)).2 ≠ none := by
        intro hc
        rw [detect_none_iff, hdoc1, filter_matches_map] at hc
        exact hne hc
      have h2doc : (autoFillForms (autoFillForms forms (some p)).2 (some p)).2 =
          ((autoFillForms forms (some p)).2).map
            (fun f => (if formMatches f then fillForm p f else (0, f)).2) :=
        autoFill_doc _ p hd2
      rw [h2doc, hdoc1, List.map_map]
      exact List.map_congr_left (fun f _ => docStep_idem p f)

theorem fillCore_fst (el : Elem) (s : String) :
    (fillCore el (some s)).1 =
      (match (tryFill el s).1 with
        | Except.ok b => b
        | Except.error _ => false) := by
  simp only [fillCore]
  rcases htf : tryFill el s with ⟨r, e⟩
  cases r <;> rfl

theorem processElem_fst (p : Profile) (el : Elem) (key s : String)
    (hk : identifyFieldType el = some key)
    (hv : resolveValue p key = some s) (hs : ¬ s = "") :
    (processElem p el).1 = (fillCore el (some s)).1 := by
  simp only [processElem, hk, hv]
  rw [if_pos (show truthy (some s) = true by simpa [truthy] using hs)]

/-- C3: over a form with exactly three classifiable fields whose resolved
profile values are truthy, where exactly one field throws during the write
and the other two fills run to completion, `autoFillForms` catches the
exception locally, still attempts the remaining fields and returns
`{success := true, count := 2}`: the failed field is simply not counted and
nothing is rolled back. -/
theorem autofill_partial_success (f : Form) (p : Profile) (a b c : Elem)
    (ka kb kc va vb vc : String)
    (hform : formMatches f = true)
    (hinputs : f.inputs = [a, b, c])
    (hka : identifyFieldType a = some ka)
    (hva : resolveValue p ka = some va) (hva2 : ¬ va = "")
    (hkb : identifyFieldType b = some kb)
    (hvb : resolveValue p kb = some vb) (hvb2 : ¬ vb = "")
    (hkc : identifyFieldType c = some kc)
    (hvc : resolveValue p kc = some vc) (hvc2 : ¬ vc = "")
    (hsplit :
      ((tryFill a va).1 = Except.error () ∧ (tryFill b vb).1 = Except.ok true ∧
        (tryFill c vc).1 = Except.ok true) ∨
      ((tryFill a va).1 = Except.ok true ∧ (tryFill b vb).1 = Except.error () ∧
        (tryFill c vc).1 = Except.ok true) ∨
      ((tryFill a va).1 = Except.ok true ∧ (tryFill b vb).1 = Except.ok true ∧
        (tryFill c vc).1 = Except.error ())) :
    (autoFillForms [f] (some p)).1 =
      { success := true, reason := none, count := some 2 } := by
  have hd : detectJobForm [f] = some [f] := by
    unfold detectJobForm
    simp [hform]
  have hpa : (processElem p a).1 =
      (match (tryFill a va).1 with
        | Except.ok bb => bb
        | Except.error _ => false) := by
    rw [processElem_fst p a ka va hka hva hva2, fillCore_fst]
  have hpb : (processElem p b).1 =
      (match (tryFill b vb).1 with
        | Except.ok bb => bb
        | Except.error _ => false) := by
    rw [processElem_fst p b kb vb hkb hvb hvb2, fillCore_fst]
  have hpc : (processElem p c).1 =
      (match (tryFill c vc).1 with
        | Except.ok bb => bb
        | Except.error _ => false) := by
    rw [processElem_fst p c kc vc hkc hvc hvc2, fillCore_fst]
  rcases hsplit with ⟨h1, h2, h3⟩ | ⟨h1, h2, h3⟩ | ⟨h1, h2, h3⟩ <;>
    rw [h1] at hpa <;> rw [h2] at hpb <;> rw [h3] at hpc <;>
    simp only [] at hpa hpb hpc <;>
    simp [autoFillForms, hd, hform, hinputs, processInputs, fillForm, hpa, hpb, hpc]

/-- The three-field job form of the partial-success witness: an email
field, a hostile phone field that throws on any write, and a name field. -/
def wForm : Form :=
  { innerText := "Job application",
    inputs := [{ lgElem with idAttr := some "email" }, hostileElem,
               { lgElem with idAttr := some "full_name" }] }

/-- The profile of the partial-success witness. -/
def wProfile : Profile :=
  { pEmpty with
    email := some "ada@example.com",
    phone := some "5551234",
    fullName := some "Ada Lovelace" }

/-- C3 (witness): on the concrete three-field form whose phone field
throws, `autoFillForms` reports `{success := true, count := 2}`. -/
theorem autofill_partial_success_witness :
    (autoFillForms [wForm] (some wProfile)).1 =
      { success := true, reason := none, count := some 2 } :=
  autofill_partial_success wForm wProfile
    { lgElem with idAttr := some "email" } hostileElem
    { lgElem with idAttr := some "full_name" }
    "email" "phone" "name" "ada@example.com" "5551234" "Ada Lovelace"
    (by decide) rfl (by decide) (by decide) (by decide) (by decide) (by decide)
    (by decide) (by decide) (by decide) (by decide)
    (Or.inr (Or.inl ⟨rfl, rfl, rfl⟩))
